import Mathlib

/-!
Verification of the instinct-learning core of `oh-my-claude-code`:
the confidence model (`lib/confidence.py`, `scripts/utils/confidence.py`),
the pattern detector (`lib/pattern_detection.py`), the clustering engine
(`lib/clustering.py`) and the pattern-to-instinct conversion
(`scripts/run-observer.py`).

Python floats are modelled as exact rationals (`ℚ`), Python ints as `ℤ`
or `ℕ`, Python strings as `String` compared by code point, and Python
dict-backed records as structures with `Option` fields (a `none` models a
missing key).  `round(x, 2)` is modelled as rounding half-up to two
decimals; no claim below depends on the behaviour at exact ties.
-/

/-- Rounding a rational to two decimal places, as Python's `round(x, 2)`
(ties are immaterial for every statement in this file). -/
def round2 (x : ℚ) : ℚ := (⌊x * 100 + 1/2⌋ : ℚ) / 100

/-! ## Confidence model: `lib/confidence.py` -/

/-- Factors affecting confidence calculation (`ConfidenceFactors`). -/
structure ConfidenceFactors where
  occurrence_count : ℤ := 0
  user_corrections : ℤ := 0
  consistency_score : ℚ := 1
  recency_boost : ℚ := 0
  domain_relevance : ℚ := 1
  deriving DecidableEq

/-- `MIN_CONFIDENCE = 0.3`. -/
def MIN_CONFIDENCE : ℚ := 3/10

/-- `MAX_CONFIDENCE = 0.9`. -/
def MAX_CONFIDENCE : ℚ := 9/10

/-- `TENTATIVE_THRESHOLD = 0.5`. -/
def TENTATIVE_THRESHOLD : ℚ := 1/2

/-- `MODERATE_THRESHOLD = 0.7`. -/
def MODERATE_THRESHOLD : ℚ := 7/10

/-- `AUTO_APPROVE_THRESHOLD = 0.7`. -/
def AUTO_APPROVE_THRESHOLD : ℚ := 7/10

/-- `calculate_base_confidence(occurrence_count)`. -/
def calculate_base_confidence (occurrence_count : ℤ) : ℚ :=
  if occurrence_count ≥ 10 then 8/10
  else if occurrence_count ≥ 5 then 6/10
  else if occurrence_count ≥ 3 then 5/10
  else MIN_CONFIDENCE

/-- `apply_corrections(base_confidence, correction_count)`. -/
def apply_corrections (base_confidence : ℚ) (correction_count : ℤ) : ℚ :=
  max MIN_CONFIDENCE (base_confidence - correction_count * (15/100))

/-- `apply_consistency_boost(confidence, consistency_score)`. -/
def apply_consistency_boost (confidence consistency_score : ℚ) : ℚ :=
  if consistency_score > 9/10 then min MAX_CONFIDENCE (confidence + 1/10)
  else if consistency_score > 7/10 then min MAX_CONFIDENCE (confidence + 1/20)
  else confidence

/-- `calculate_confidence(factors)`. -/
def calculate_confidence (factors : ConfidenceFactors) : ℚ :=
  let c1 := calculate_base_confidence factors.occurrence_count
  let c2 := apply_corrections c1 factors.user_corrections
  let c3 := apply_consistency_boost c2 factors.consistency_score
  let c4 := min MAX_CONFIDENCE (c3 + factors.recency_boost)
  let c5 := c4 * factors.domain_relevance
  round2 (max MIN_CONFIDENCE (min MAX_CONFIDENCE c5))

/-- `calculate_decay(current_confidence, days_since_use, decay_rate)`. -/
def calculate_decay (current_confidence : ℚ) (days_since_use : ℤ)
    (decay_rate : ℚ) : ℚ :=
  if days_since_use ≤ 0 then current_confidence
  else max MIN_CONFIDENCE (current_confidence - days_since_use * decay_rate)

/-- `calculate_merge_confidence(confidence1, confidence2, weight1)`. -/
def calculate_merge_confidence (confidence1 confidence2 weight1 : ℚ) : ℚ :=
  round2 (max MIN_CONFIDENCE
    (min MAX_CONFIDENCE (confidence1 * weight1 + confidence2 * (1 - weight1))))

/-- `calculate_cluster_confidence(confidences)`. -/
def calculate_cluster_confidence (confidences : List ℚ) : ℚ :=
  if confidences = [] then MIN_CONFIDENCE
  else
    let avg := confidences.sum / confidences.length
    let cluster_boost := min (1/10) ((confidences.length : ℚ) * (2/100))
    round2 (min MAX_CONFIDENCE (avg + cluster_boost))

/-! ## Helper lemmas about `round2` and list means -/

theorem round2_mono {x y : ℚ} (h : x ≤ y) : round2 x ≤ round2 y := by
  unfold round2
  have h100 : x * 100 + 1/2 ≤ y * 100 + 1/2 := by nlinarith
  have := Int.floor_le_floor h100
  have hc : ((⌊x * 100 + 1/2⌋ : ℤ) : ℚ) ≤ ((⌊y * 100 + 1/2⌋ : ℤ) : ℚ) := by
    exact_mod_cast this
  linarith

theorem round2_three_tenths : round2 (3/10) = 3/10 := by
  unfold round2
  norm_num [Int.floor_eq_iff]

theorem round2_nine_tenths : round2 (9/10) = 9/10 := by
  unfold round2
  norm_num [Int.floor_eq_iff]

theorem round2_mem_range {x : ℚ} (h1 : 3/10 ≤ x) (h2 : x ≤ 9/10) :
    3/10 ≤ round2 x ∧ round2 x ≤ 9/10 := by
  constructor
  · calc (3/10 : ℚ) = round2 (3/10) := round2_three_tenths.symm
    _ ≤ round2 x := round2_mono h1
  · calc round2 x ≤ round2 (9/10) := round2_mono h2
    _ = 9/10 := round2_nine_tenths

theorem clamp_mem_range (z : ℚ) :
    3/10 ≤ max MIN_CONFIDENCE (min MAX_CONFIDENCE z) ∧
    max MIN_CONFIDENCE (min MAX_CONFIDENCE z) ≤ 9/10 := by
  unfold MIN_CONFIDENCE MAX_CONFIDENCE
  exact ⟨le_max_left _ _, max_le (by norm_num) (min_le_left _ _)⟩

theorem list_mean_lower {l : List ℚ} {a : ℚ} (hne : l ≠ [])
    (h : ∀ x ∈ l, a ≤ x) : a ≤ l.sum / l.length := by
  have hlen : 0 < (l.length : ℚ) := by
    have : 0 < l.length := List.length_pos.mpr hne
    exact_mod_cast this
  rw [le_div_iff₀ hlen]
  clear hlen hne
  induction l with
  | nil => simp
  | cons x xs ih =>
    have hx : a ≤ x := h x (List.mem_cons_self x xs)
    have hxs : ∀ y ∈ xs, a ≤ y := fun y hy => h y (List.mem_cons_of_mem x hy)
    simp only [List.sum_cons, List.length_cons]
    push_cast
    have := ih hxs
    linarith

theorem list_mean_upper {l : List ℚ} {b : ℚ} (hne : l ≠ [])
    (h : ∀ x ∈ l, x ≤ b) : l.sum / l.length ≤ b := by
  have hlen : 0 < (l.length : ℚ) := by
    have : 0 < l.length := List.length_pos.mpr hne
    exact_mod_cast this
  rw [div_le_iff₀ hlen]
  clear hlen hne
  induction l with
  | nil => simp
  | cons x xs ih =>
    have hx : x ≤ b := h x (List.mem_cons_self x xs)
    have hxs : ∀ y ∈ xs, y ≤ b := fun y hy => h y (List.mem_cons_of_mem x hy)
    simp only [List.sum_cons, List.length_cons]
    push_cast
    have := ih hxs
    linarith

/-! ## Claim C1 -/

/-- C1 (counterexample): the claim that every build-time confidence
function maps every input into `[0.3, 0.9]` is false: `apply_corrections`
passes an out-of-range base confidence `1.0` through unchanged (no upper
clamp), and `calculate_cluster_confidence` applied to `[0.0]` returns
`0.02`, below the floor (no lower clamp). -/
theorem C1_clamping_counterexample :
    MAX_CONFIDENCE < apply_corrections 1 0 ∧
    calculate_cluster_confidence [0] < MIN_CONFIDENCE := by
  constructor
  · unfold apply_corrections MIN_CONFIDENCE MAX_CONFIDENCE
    norm_num
  · unfold calculate_cluster_confidence round2 MIN_CONFIDENCE MAX_CONFIDENCE
    norm_num [Int.floor_eq_iff]

/-- C1 (amended): `calculate_base_confidence`, `calculate_confidence` and
`calculate_merge_confidence` return a value within `[0.3, 0.9]` for every
input; `apply_corrections`, `apply_consistency_boost`, `calculate_decay`
and `calculate_cluster_confidence` do so whenever their confidence inputs
already lie within `[0.3, 0.9]` and their count/rate arguments are
nonnegative. -/
theorem C1_clamping_amended :
    (∀ n : ℤ, MIN_CONFIDENCE ≤ calculate_base_confidence n ∧
      calculate_base_confidence n ≤ MAX_CONFIDENCE) ∧
    (∀ f : ConfidenceFactors, MIN_CONFIDENCE ≤ calculate_confidence f ∧
      calculate_confidence f ≤ MAX_CONFIDENCE) ∧
    (∀ c1 c2 w : ℚ, MIN_CONFIDENCE ≤ calculate_merge_confidence c1 c2 w ∧
      calculate_merge_confidence c1 c2 w ≤ MAX_CONFIDENCE) ∧
    (∀ (b : ℚ) (k : ℤ), MIN_CONFIDENCE ≤ b → b ≤ MAX_CONFIDENCE → 0 ≤ k →
      MIN_CONFIDENCE ≤ apply_corrections b k ∧
      apply_corrections b k ≤ MAX_CONFIDENCE) ∧
    (∀ c s : ℚ, MIN_CONFIDENCE ≤ c → c ≤ MAX_CONFIDENCE →
      MIN_CONFIDENCE ≤ apply_consistency_boost c s ∧
      apply_consistency_boost c s ≤ MAX_CONFIDENCE) ∧
    (∀ (c : ℚ) (d : ℤ) (r : ℚ), MIN_CONFIDENCE ≤ c → c ≤ MAX_CONFIDENCE →
      0 ≤ r → MIN_CONFIDENCE ≤ calculate_decay c d r ∧
      calculate_decay c d r ≤ MAX_CONFIDENCE) ∧
    (∀ l : List ℚ, (∀ x ∈ l, MIN_CONFIDENCE ≤ x ∧ x ≤ MAX_CONFIDENCE) →
      MIN_CONFIDENCE ≤ calculate_cluster_confidence l ∧
      calculate_cluster_confidence l ≤ MAX_CONFIDENCE) := by
  unfold MIN_CONFIDENCE MAX_CONFIDENCE
  refine ⟨?_, ?_, ?_, ?_, ?_, ?_, ?_⟩
  · intro n
    unfold calculate_base_confidence MIN_CONFIDENCE
    split_ifs <;> norm_num
  · intro f
    unfold calculate_confidence
    exact round2_mem_range (clamp_mem_range _).1 (clamp_mem_range _).2
  · intro c1 c2 w
    unfold calculate_merge_confidence
    exact round2_mem_range (clamp_mem_range _).1 (clamp_mem_range _).2
  · intro b k hb1 hb2 hk
    unfold apply_corrections MIN_CONFIDENCE
    constructor
    · simp [le_max_iff]
    · have hk' : (0 : ℚ) ≤ (k : ℚ) := by exact_mod_cast hk
      have : b - (k : ℚ) * (15/100) ≤ 9/10 := by nlinarith [hb2]
      simp only [max_le_iff]
      exact ⟨by norm_num, this⟩
  · intro c s hc1 hc2
    unfold apply_consistency_boost MAX_CONFIDENCE
    split_ifs
    · constructor
      · simp only [le_min_iff]
        constructor <;> linarith
      · simp [min_le_iff]
    · constructor
      · simp only [le_min_iff]
        constructor <;> linarith
      · simp [min_le_iff]
    · exact ⟨hc1, hc2⟩
  · intro c d r hc1 hc2 hr
    unfold calculate_decay MIN_CONFIDENCE
    split_ifs with hd
    · exact ⟨hc1, hc2⟩
    · constructor
      · simp [le_max_iff]
      · have hd' : (0 : ℚ) ≤ (d : ℚ) := by
          have : (0 : ℤ) ≤ d := by omega
          exact_mod_cast this
        have : c - (d : ℚ) * r ≤ 9/10 := by nlinarith
        simp only [max_le_iff]
        exact ⟨by norm_num, this⟩
  · intro l hl
    unfold calculate_cluster_confidence
    split_ifs with hemp
    · norm_num [MIN_CONFIDENCE]
    · have hlow : (3/10 : ℚ) ≤ l.sum / l.length :=
        list_mean_lower hemp (fun x hx => (hl x hx).1)
      have hup : l.sum / l.length ≤ 9/10 :=
        list_mean_upper hemp (fun x hx => (hl x hx).2)
      have hboost0 : (0 : ℚ) ≤ min (1/10) ((l.length : ℚ) * (2/100)) := by
        have : (0 : ℚ) ≤ (l.length : ℚ) := by positivity
        simp only [le_min_iff]
        constructor <;> nlinarith
      apply round2_mem_range
      · simp only [le_min_iff]
        constructor
        · norm_num [MAX_CONFIDENCE]
        · linarith
      · simp [min_le_iff, MAX_CONFIDENCE]

/-- C1 (witness): the amended bounds instantiated at concrete inputs:
`apply_corrections 0.7 1 = 0.55 ∈ [0.3, 0.9]`. -/
theorem C1_clamping_amended_witness :
    MIN_CONFIDENCE ≤ apply_corrections (7/10) 1 ∧
    apply_corrections (7/10) 1 ≤ MAX_CONFIDENCE :=
  (C1_clamping_amended.2.2.2.1 (7/10) 1 (by norm_num [MIN_CONFIDENCE])
    (by norm_num [MAX_CONFIDENCE]) (by norm_num))

/-! ## Claim C3 -/

/-- C3: `calculate_decay` returns its input unchanged when
`days_since_use ≤ 0`, returns `max(0.3, c − d·r)` when `d > 0`, and for
every starting confidence in `[0.3, 0.9]` with `d, r > 0` and
`d·r ≥ c − 0.3` the result is exactly the floor `0.3`; with `d > 0` the
result is never below the floor. -/
theorem C3_decay_floor :
    (∀ (c r : ℚ) (d : ℤ), d ≤ 0 → calculate_decay c d r = c) ∧
    (∀ (c r : ℚ) (d : ℤ), 0 < d →
      calculate_decay c d r = max MIN_CONFIDENCE (c - d * r)) ∧
    (∀ (c r : ℚ) (d : ℤ), 0 < d → MIN_CONFIDENCE ≤ calculate_decay c d r) ∧
    (∀ (c r : ℚ) (d : ℤ), MIN_CONFIDENCE ≤ c → c ≤ MAX_CONFIDENCE →
      0 < d → 0 < r → c - MIN_CONFIDENCE ≤ d * r →
      calculate_decay c d r = MIN_CONFIDENCE) := by
  refine ⟨?_, ?_, ?_, ?_⟩
  · intro c r d hd
    unfold calculate_decay
    simp [hd]
  · intro c r d hd
    unfold calculate_decay
    rw [if_neg (by omega)]
  · intro c r d hd
    unfold calculate_decay
    rw [if_neg (by omega)]
    simp [le_max_iff]
  · intro c r d hc1 hc2 hd hr hdr
    unfold calculate_decay
    rw [if_neg (by omega)]
    have : c - (d : ℚ) * r ≤ MIN_CONFIDENCE := by
      have : c - MIN_CONFIDENCE ≤ (d : ℚ) * r := by exact_mod_cast hdr
      linarith
    exact max_eq_left this

/-- C3 (witness): `calculate_decay 0.8 100 0.02 = 0.3`, exercising the
no-op branch, the linear branch and the floor-convergence clause. -/
theorem C3_decay_floor_witness :
    calculate_decay (8/10) (-3) (2/100) = 8/10 ∧
    calculate_decay (8/10) 100 (2/100) = max MIN_CONFIDENCE (8/10 - 100 * (2/100)) ∧
    calculate_decay (8/10) 100 (2/100) = MIN_CONFIDENCE := by
  refine ⟨C3_decay_floor.1 (8/10) (2/100) (-3) (by norm_num),
    ?_, C3_decay_floor.2.2.2 (8/10) (2/100) 100 (by norm_num [MIN_CONFIDENCE])
      (by norm_num [MAX_CONFIDENCE]) (by norm_num) (by norm_num)
      (by norm_num [MIN_CONFIDENCE])⟩
  have := C3_decay_floor.2.1 (8/10) (2/100) 100 (by norm_num)
  simpa using this

/-! ## Claim C4: monotonicity of `calculate_confidence` -/

theorem calculate_base_confidence_mono {n1 n2 : ℤ} (h : n1 ≤ n2) :
    calculate_base_confidence n1 ≤ calculate_base_confidence n2 := by
  unfold calculate_base_confidence MIN_CONFIDENCE
  split_ifs <;> norm_num <;> omega

theorem calculate_base_confidence_le (n : ℤ) :
    calculate_base_confidence n ≤ 8/10 := by
  unfold calculate_base_confidence MIN_CONFIDENCE
  split_ifs <;> norm_num

theorem apply_corrections_mono_base {b1 b2 : ℚ} (k : ℤ) (h : b1 ≤ b2) :
    apply_corrections b1 k ≤ apply_corrections b2 k := by
  unfold apply_corrections
  exact max_le_max (le_refl _) (by linarith)

theorem apply_corrections_anti_count (b : ℚ) {k1 k2 : ℤ} (h : k1 ≤ k2) :
    apply_corrections b k2 ≤ apply_corrections b k1 := by
  unfold apply_corrections
  have hq : (k1 : ℚ) ≤ (k2 : ℚ) := by exact_mod_cast h
  exact max_le_max (le_refl _) (by nlinarith)

theorem apply_corrections_le_of_nonneg {b : ℚ} {k : ℤ} (hb : b ≤ 8/10)
    (hk : 0 ≤ k) : apply_corrections b k ≤ 9/10 := by
  unfold apply_corrections MIN_CONFIDENCE
  have hq : (0 : ℚ) ≤ (k : ℚ) := by exact_mod_cast hk
  apply max_le (by norm_num)
  nlinarith

theorem apply_consistency_boost_mono_conf {c1 c2 : ℚ} (s : ℚ) (h : c1 ≤ c2) :
    apply_consistency_boost c1 s ≤ apply_consistency_boost c2 s := by
  unfold apply_consistency_boost
  split_ifs <;>
    first
      | exact h
      | exact min_le_min (le_refl _) (by linarith)

theorem apply_consistency_boost_mono_score {c : ℚ} (hc : c ≤ 9/10)
    {s1 s2 : ℚ} (h : s1 ≤ s2) :
    apply_consistency_boost c s1 ≤ apply_consistency_boost c s2 := by
  unfold apply_consistency_boost MAX_CONFIDENCE
  split_ifs <;>
    first
      | exact le_refl _
      | exact le_min (by linarith) (by linarith)
      | exact min_le_min (le_refl _) (by linarith)
      | (exfalso; linarith)

/-- C4 (counterexample): with `user_corrections = −2` (which pushes the
intermediate confidence above the `0.9` cap) and `recency_boost = −0.5`,
raising `consistency_score` from `0.5` to `0.95` lowers the final score
from `0.6` to `0.4`, so `calculate_confidence` is not non-decreasing in
`consistency_score` even though `domain_relevance = 1 ≥ 0`. -/
theorem C4_monotonicity_counterexample :
    (1/2 : ℚ) ≤ 95/100 ∧ (0 : ℚ) ≤ 1 ∧
    calculate_confidence ⟨10, -2, 1/2, -1/2, 1⟩ = 6/10 ∧
    calculate_confidence ⟨10, -2, 95/100, -1/2, 1⟩ = 4/10 := by
  refine ⟨by norm_num, by norm_num, ?_, ?_⟩ <;>
    · unfold calculate_confidence calculate_base_confidence apply_corrections
        apply_consistency_boost round2 MIN_CONFIDENCE MAX_CONFIDENCE
      norm_num [max_def, min_def, Int.floor_eq_iff]

/-- C4 (amended): for all factor records with `domain_relevance ≥ 0`,
`calculate_confidence` is non-decreasing in `occurrence_count` and
non-increasing in `user_corrections` holding the other factors fixed;
it is non-decreasing in `consistency_score` holding the other factors
fixed provided additionally `user_corrections ≥ 0`. -/
theorem C4_monotonicity_amended :
    (∀ (uc : ℤ) (cs rb dr : ℚ), 0 ≤ dr → ∀ n1 n2 : ℤ, n1 ≤ n2 →
      calculate_confidence ⟨n1, uc, cs, rb, dr⟩ ≤
        calculate_confidence ⟨n2, uc, cs, rb, dr⟩) ∧
    (∀ (n : ℤ) (cs rb dr : ℚ), 0 ≤ dr → ∀ k1 k2 : ℤ, k1 ≤ k2 →
      calculate_confidence ⟨n, k2, cs, rb, dr⟩ ≤
        calculate_confidence ⟨n, k1, cs, rb, dr⟩) ∧
    (∀ (n uc : ℤ) (rb dr : ℚ), 0 ≤ dr → 0 ≤ uc → ∀ s1 s2 : ℚ, s1 ≤ s2 →
      calculate_confidence ⟨n, uc, s1, rb, dr⟩ ≤
        calculate_confidence ⟨n, uc, s2, rb, dr⟩) := by
  refine ⟨?_, ?_, ?_⟩
  · intro uc cs rb dr hdr n1 n2 h
    unfold calculate_confidence
    apply round2_mono
    apply max_le_max (le_refl _)
    apply min_le_min (le_refl _)
    apply mul_le_mul_of_nonneg_right _ hdr
    apply min_le_min (le_refl _)
    have := apply_consistency_boost_mono_conf cs
      (apply_corrections_mono_base uc (calculate_base_confidence_mono h))
    simpa using add_le_add_right this rb
  · intro n cs rb dr hdr k1 k2 h
    unfold calculate_confidence
    apply round2_mono
    apply max_le_max (le_refl _)
    apply min_le_min (le_refl _)
    apply mul_le_mul_of_nonneg_right _ hdr
    apply min_le_min (le_refl _)
    have := apply_consistency_boost_mono_conf cs
      (apply_corrections_anti_count (calculate_base_confidence n) h)
    simpa using add_le_add_right this rb
  · intro n uc rb dr hdr huc s1 s2 h
    unfold calculate_confidence
    apply round2_mono
    apply max_le_max (le_refl _)
    apply min_le_min (le_refl _)
    apply mul_le_mul_of_nonneg_right _ hdr
    apply min_le_min (le_refl _)
    have hc : apply_corrections (calculate_base_confidence n) uc ≤ 9/10 :=
      apply_corrections_le_of_nonneg (calculate_base_confidence_le n) huc
    have := apply_consistency_boost_mono_score hc h
    simpa using add_le_add_right this rb

/-- C4 (witness): the amended monotonicity instantiated concretely:
going from 3 to 10 occurrences does not lower the score. -/
theorem C4_monotonicity_amended_witness :
    calculate_confidence ⟨3, 0, 1, 0, 1⟩ ≤ calculate_confidence ⟨10, 0, 1, 0, 1⟩ :=
  C4_monotonicity_amended.1 0 1 0 1 (by norm_num) 3 10 (by norm_num)

/-! ## Generic helpers: strings, stable sort, insertion-ordered grouping

Python's `sorted` is modelled by a stable insertion sort (any stable sort
computes the same list), `str.lower` by character-wise lowercasing (all
triggers in play are ASCII), `k in t` by list-infix search, and
`defaultdict`/`Counter` iteration by association lists whose keys appear
in first-insertion order. -/

/-- Character-wise lowercasing, modelling `str.lower()`. -/
def strLower (s : String) : String := String.mk (s.data.map Char.toLower)

/-- Checks whether `needle` occurs at the start of `hay`. -/
def isPrefixOfL : List Char → List Char → Bool
  | [], _ => true
  | _ :: _, [] => false
  | a :: as, b :: bs => a == b && isPrefixOfL as bs

/-- Checks whether `needle` occurs contiguously inside `hay`. -/
def containsSub : List Char → List Char → Bool
  | [], needle => needle.isEmpty
  | a :: hs, needle => isPrefixOfL needle (a :: hs) || containsSub hs needle

/-- Python's `needle in hay` on strings. -/
def strContains (hay needle : String) : Bool := containsSub hay.data needle.data

/-- Lexicographic comparison of char lists by code point. -/
def charListLe : List Char → List Char → Bool
  | [], _ => true
  | _ :: _, [] => false
  | a :: as, b :: bs =>
    if a.val < b.val then true
    else if b.val < a.val then false
    else charListLe as bs

/-- Python's `≤` on strings (code-point lexicographic). -/
def strLeB (a b : String) : Bool := charListLe a.data b.data

/-- Inserts `x` after every element `y` of an ascending list with
`le y x`, the insertion step of a stable insertion sort. -/
def insertStable (le : α → α → Bool) (x : α) : List α → List α
  | [] => [x]
  | y :: ys => if le y x then y :: insertStable le x ys else x :: y :: ys

/-- Stable sort (equal keys keep their original relative order),
modelling Python's `sorted`/`list.sort`. -/
def stableSortBy (le : α → α → Bool) (l : List α) : List α :=
  l.foldl (fun acc x => insertStable le x acc) []

theorem mem_insertStable (le : α → α → Bool) (x : α) (l : List α) (a : α) :
    a ∈ insertStable le x l ↔ a = x ∨ a ∈ l := by
  induction l with
  | nil => simp [insertStable]
  | cons y ys ih =>
    unfold insertStable
    split_ifs
    · rw [List.mem_cons, ih, List.mem_cons]
      tauto
    · exact List.mem_cons

theorem mem_stableSortBy_aux (le : α → α → Bool) (l acc : List α) (a : α) :
    a ∈ l.foldl (fun acc x => insertStable le x acc) acc ↔ a ∈ acc ∨ a ∈ l := by
  induction l generalizing acc with
  | nil => simp
  | cons x xs ih =>
    simp only [List.foldl_cons, ih, mem_insertStable, List.mem_cons]
    tauto

theorem mem_stableSortBy (le : α → α → Bool) (l : List α) (a : α) :
    a ∈ stableSortBy le l ↔ a ∈ l := by
  unfold stableSortBy
  rw [mem_stableSortBy_aux]
  simp

/-- Keeps the first occurrence of every element, dropping later
duplicates (elements already `seen` are skipped); the key order of an
insertion-ordered dict. -/
def firstDedupAux [BEq α] (seen : List α) : List α → List α
  | [] => []
  | x :: xs =>
    if seen.contains x then firstDedupAux seen xs
    else x :: firstDedupAux (x :: seen) xs

/-- Keeps the first occurrence of every element, dropping later
duplicates; the key order of an insertion-ordered dict. -/
def firstDedup [BEq α] (l : List α) : List α := firstDedupAux [] l

/-- Counter/defaultdict-style association: keys in first-occurrence
order, each mapped to its total multiplicity in `l`. -/
def countOcc [BEq α] (l : List α) : List (α × ℕ) :=
  (firstDedup l).map (fun a => (a, l.count a))

/-! ## Data model: Instinct, Pattern, Cluster -/

/-- A persisted learned heuristic (`instinct_parser.Instinct`). -/
structure Instinct where
  id : String
  trigger : String
  confidence : ℚ
  domain : String
  created : String
  source : String := "observation"
  evidence_count : ℕ := 1
  action : String := ""
  evidence : List String := []
  deriving DecidableEq

/-- The `pattern` field of a detected pattern is either a descriptive
string or an ordered list of tool names (`str | list[str]`). -/
inductive PatternBody
  | ofString (s : String)
  | ofList (l : List String)
  deriving DecidableEq

/-- One supporting-evidence record attached to a pattern. -/
inductive EvidenceItem
  | seqEvidence (sequence : List String) (count : ℕ)
  | errorFixEvidence (failed_tool recovery_tool : String) (count : ℕ)
  | toolPrefEvidence (tool : String) (usage_share : ℚ) (count : ℕ)
  deriving DecidableEq

/-- A detected behavioral pattern (`pattern_detection.Pattern`). -/
structure Pattern where
  pattern_type : String
  pattern : PatternBody
  confidence : ℚ
  evidence_count : ℕ
  domain : String
  evidence : List EvidenceItem
  deriving DecidableEq

/-- A cluster of related instincts (`clustering.Cluster`). -/
structure Cluster where
  domain : String
  instincts : List Instinct
  avg_confidence : ℚ
  capability_type : String
  deriving DecidableEq

/-- `Cluster.count` property. -/
def Cluster.count (c : Cluster) : ℕ := c.instincts.length

/-! ## Clustering engine: `lib/clustering.py` -/

/-- `MIN_INSTINCTS_FOR_CLUSTER = 3`. -/
def MIN_INSTINCTS_FOR_CLUSTER : ℤ := 3

/-- `MIN_AVG_CONFIDENCE = 0.7`. -/
def MIN_AVG_CONFIDENCE : ℚ := 7/10

/-- `group_by_domain(instincts)`: insertion-ordered dict of domain →
members; keys in first-occurrence order, each bucket the subsequence of
instincts with that domain. -/
def group_by_domain (instincts : List Instinct) : List (String × List Instinct) :=
  (firstDedup (instincts.map (·.domain))).map
    (fun d => (d, instincts.filter (fun i => i.domain == d)))

/-- Keyword list `auto_keywords` (computed but unused by the decision in
the source). -/
def auto_keywords : List String := ["when", "always", "automatically", "on"]

/-- Keyword list `command_keywords`. -/
def command_keywords : List String := ["run", "execute", "perform", "do"]

/-- Keyword list `complex_keywords`. -/
def complex_keywords : List String := ["analyze", "research", "investigate", "design"]

/-- `determine_capability_type(instincts)`; the source also counts
`auto_keywords` hits but never uses that count. -/
def determine_capability_type (instincts : List Instinct) : String :=
  let triggers := instincts.map (fun i => strLower i.trigger)
  let command_count :=
    triggers.countP (fun t => command_keywords.any (fun k => strContains t k))
  let complex_count :=
    triggers.countP (fun t => complex_keywords.any (fun k => strContains t k))
  if (complex_count : ℚ) > (instincts.length : ℚ) * (3/10) then "agent"
  else if (command_count : ℚ) > (instincts.length : ℚ) * (3/10) then "command"
  else "skill"

/-- `create_clusters(instincts, min_size, min_confidence)`: admit each
domain group with at least `min_size` members and mean confidence at
least `min_confidence`, then sort by `avg_confidence` descending
(stable). -/
def create_clusters (instincts : List Instinct) (min_size : ℤ)
    (min_confidence : ℚ) : List Cluster :=
  let clusters := (group_by_domain instincts).filterMap (fun g =>
    if (g.2.length : ℤ) < min_size then none
    else
      let confidences := g.2.map (·.confidence)
      let avg := confidences.sum / (confidences.length : ℚ)
      if avg < min_confidence then none
      else some ⟨g.1, g.2, round2 avg, determine_capability_type g.2⟩)
  stableSortBy (fun a b => decide (b.avg_confidence ≤ a.avg_confidence)) clusters

/-- `merge_similar_clusters(clusters)`: identity pass-through. -/
def merge_similar_clusters (clusters : List Cluster) : List Cluster := clusters

/-- `filter_ready_for_evolution(clusters)`. -/
def filter_ready_for_evolution (clusters : List Cluster) : List Cluster :=
  clusters.filter (fun c =>
    decide (MIN_INSTINCTS_FOR_CLUSTER ≤ (c.count : ℤ)) &&
    decide (AUTO_APPROVE_THRESHOLD ≤ c.avg_confidence))

/-- State of `EvolutionEngine`: configured minimum cluster size plus the
cached result of the last `analyze` call. -/
structure EvolutionEngine where
  min_cluster_size : ℤ := MIN_INSTINCTS_FOR_CLUSTER
  clusters : List Cluster := []
  deriving DecidableEq

/-- `EvolutionEngine.analyze(instincts)`: recompute and cache clusters
(`min_size` from the engine, `min_confidence` left at its default). -/
def EvolutionEngine.analyze (e : EvolutionEngine)
    (instincts : List Instinct) : EvolutionEngine :=
  ⟨e.min_cluster_size, create_clusters instincts e.min_cluster_size MIN_AVG_CONFIDENCE⟩

/-- `EvolutionEngine.get_ready_clusters()`. -/
def EvolutionEngine.get_ready_clusters (e : EvolutionEngine) : List Cluster :=
  filter_ready_for_evolution e.clusters

/-- `EvolutionEngine.get_pending_clusters()`: cached clusters not in the
ready list (membership by structural equality, as Python's `in`). -/
def EvolutionEngine.get_pending_clusters (e : EvolutionEngine) : List Cluster :=
  e.clusters.filter (fun c => !(e.get_ready_clusters.contains c))

/-! ## Claim C6 -/

/-- Capability classifier written from the claim's words: count members
whose lower-cased trigger contains any complex keyword / any command
keyword as a substring; `agent` when the complex count exceeds 30% of the
member count, else `command` when the command count does, else `skill`. -/
def spec_capability_type (instincts : List Instinct) : String :=
  let complexCount := (instincts.filter
    (fun i => complex_keywords.any (fun k => strContains (strLower i.trigger) k))).length
  let commandCount := (instincts.filter
    (fun i => command_keywords.any (fun k => strContains (strLower i.trigger) k))).length
  if (complexCount : ℚ) > (3/10) * (instincts.length : ℚ) then "agent"
  else if (commandCount : ℚ) > (3/10) * (instincts.length : ℚ) then "command"
  else "skill"

/-- Sample instinct with trigger `"run tests now"`. -/
def sampleRunTests : Instinct :=
  ⟨"i1", "run tests now", 8/10, "workflow", "", "observation", 1, "", []⟩

/-- Sample instinct with trigger `"execute build"`. -/
def sampleExecuteBuild : Instinct :=
  ⟨"i2", "execute build", 8/10, "workflow", "", "observation", 1, "", []⟩

/-- C6: on every non-empty instinct list `determine_capability_type`
implements exactly the claimed keyword-threshold classifier (complex
evaluated before command, so a group over both thresholds resolves to
`agent`), and the concrete 2-member group with triggers
`"run tests now"` and `"execute build"` classifies as `command`. -/
theorem C6_capability_classification :
    (∀ instincts : List Instinct, instincts ≠ [] →
      determine_capability_type instincts = spec_capability_type instincts) ∧
    determine_capability_type [sampleRunTests, sampleExecuteBuild] = "command" := by
  constructor
  · intro instincts hne
    unfold determine_capability_type spec_capability_type
    have hcomm : ∀ a b : ℚ, (b * (3/10) < a) ↔ ((3/10) * b < a) := by
      intro a b
      rw [mul_comm]
    simp only [List.countP_map, Function.comp_def, List.countP_eq_length_filter,
      List.filter_map, List.length_map, hcomm, gt_iff_lt]
  · have hmap : ([sampleRunTests, sampleExecuteBuild].map (fun i => strLower i.trigger))
        = ["run tests now", "execute build"] := by decide
    have hcplx : (["run tests now", "execute build"].countP
        (fun t => complex_keywords.any (fun k => strContains t k))) = 0 := by decide
    have hcmd : (["run tests now", "execute build"].countP
        (fun t => command_keywords.any (fun k => strContains t k))) = 2 := by decide
    unfold determine_capability_type
    simp only [hmap, hcplx, hcmd, List.length_cons, List.length_nil]
    norm_num

/-- C6 (witness): the classifier equivalence applied to the concrete
2-member group. -/
theorem C6_capability_classification_witness :
    determine_capability_type [sampleRunTests, sampleExecuteBuild] =
      spec_capability_type [sampleRunTests, sampleExecuteBuild] :=
  C6_capability_classification.1 [sampleRunTests, sampleExecuteBuild] (by simp)

/-! ## Membership lemmas for grouping and clustering -/

theorem mem_firstDedupAux [DecidableEq α] (l : List α) (seen : List α) (a : α) :
    a ∈ firstDedupAux seen l ↔ a ∈ l ∧ a ∉ seen := by
  induction l generalizing seen with
  | nil => simp [firstDedupAux]
  | cons x xs ih =>
    unfold firstDedupAux
    by_cases hx : seen.contains x
    · have hxseen : x ∈ seen := List.elem_iff.mp hx
      rw [if_pos hx, ih]
      simp only [List.mem_cons]
      constructor
      · tauto
      · rintro ⟨hax | hax, hns⟩
        · exact absurd (show a ∈ seen by rw [hax]; exact hxseen) hns
        · exact ⟨hax, hns⟩
    · have hxseen : x ∉ seen := fun hmem => hx (List.elem_iff.mpr hmem)
      rw [if_neg hx]
      simp only [List.mem_cons, ih]
      constructor
      · intro h
        rcases h with h | ⟨hax, hns⟩
        · refine ⟨Or.inl h, ?_⟩
          rw [h]
          exact hxseen
        · exact ⟨Or.inr hax, fun hs => hns (Or.inr hs)⟩
      · intro h
        rcases h with ⟨h1, hns⟩
        by_cases hax : a = x
        · exact Or.inl hax
        · rcases h1 with h1 | h1
          · exact absurd h1 hax
          · exact Or.inr ⟨h1, fun hs => hs.elim hax hns⟩

theorem mem_firstDedup [DecidableEq α] (l : List α) (a : α) :
    a ∈ firstDedup l ↔ a ∈ l := by
  unfold firstDedup
  rw [mem_firstDedupAux]
  simp

theorem mem_group_by_domain {instincts : List Instinct} {d : String}
    {g : List Instinct} :
    (d, g) ∈ group_by_domain instincts ↔
      d ∈ instincts.map (fun i => i.domain) ∧
      g = instincts.filter (fun i => i.domain == d) := by
  unfold group_by_domain
  rw [List.mem_map]
  constructor
  · rintro ⟨d', hd', heq⟩
    obtain ⟨rfl, rfl⟩ := Prod.mk.injEq .. ▸ heq
    exact ⟨(mem_firstDedup _ _).mp hd', rfl⟩
  · rintro ⟨hd, rfl⟩
    exact ⟨d, (mem_firstDedup _ _).mpr hd, rfl⟩

theorem group_by_domain_nonempty {instincts : List Instinct} {d : String}
    {g : List Instinct} (h : (d, g) ∈ group_by_domain instincts) : g ≠ [] := by
  obtain ⟨hd, rfl⟩ := mem_group_by_domain.mp h
  obtain ⟨i, hi, hdi⟩ := List.mem_map.mp hd
  intro hnil
  have : i ∈ instincts.filter (fun i => i.domain == d) :=
    List.mem_filter.mpr ⟨hi, by simp [hdi]⟩
  rw [hnil] at this
  exact List.not_mem_nil i this

theorem mem_create_clusters {instincts : List Instinct} {ms : ℤ} {mc : ℚ}
    {c : Cluster} :
    c ∈ create_clusters instincts ms mc ↔
      ∃ d g, (d, g) ∈ group_by_domain instincts ∧
        ¬((g.length : ℤ) < ms) ∧
        ¬((g.map (fun i => i.confidence)).sum /
            (((g.map (fun i => i.confidence)).length : ℕ) : ℚ) < mc) ∧
        c = ⟨d, g,
          round2 ((g.map (fun i => i.confidence)).sum /
            (((g.map (fun i => i.confidence)).length : ℕ) : ℚ)),
          determine_capability_type g⟩ := by
  unfold create_clusters
  rw [mem_stableSortBy, List.mem_filterMap]
  constructor
  · rintro ⟨⟨d, g⟩, hg, hf⟩
    dsimp only at hf
    split_ifs at hf with h1 h2
    · rw [Option.some.injEq] at hf
      exact ⟨d, g, hg, h1, h2, hf.symm⟩
  · rintro ⟨d, g, hg, h1, h2, rfl⟩
    refine ⟨(d, g), hg, ?_⟩
    dsimp only
    rw [if_neg h1, if_neg h2]

theorem round2_seven_tenths : round2 (7/10) = 7/10 := by
  unfold round2
  norm_num [Int.floor_eq_iff]

theorem create_clusters_admission_iff (instincts : List Instinct) (ms : ℤ)
    (mc : ℚ) (d : String) (g : List Instinct)
    (hg : (d, g) ∈ group_by_domain instincts) :
    (∃ c ∈ create_clusters instincts ms mc, c.domain = d ∧ c.instincts = g) ↔
      (ms ≤ (g.length : ℤ) ∧
        mc ≤ (g.map (fun i => i.confidence)).sum / (g.length : ℚ)) := by
  constructor
  · rintro ⟨c, hc, hcd, hci⟩
    obtain ⟨d', g', hg', h1, h2, rfl⟩ := mem_create_clusters.mp hc
    dsimp only at hcd hci
    subst hcd
    subst hci
    rw [List.length_map] at h2
    exact ⟨not_lt.mp h1, not_lt.mp h2⟩
  · rintro ⟨hms, hmc⟩
    refine ⟨⟨d, g,
      round2 ((g.map (fun i => i.confidence)).sum /
        (((g.map (fun i => i.confidence)).length : ℕ) : ℚ)),
      determine_capability_type g⟩,
      mem_create_clusters.mpr ⟨d, g, hg, not_lt.mpr hms, ?_, rfl⟩, rfl, rfl⟩
    rw [List.length_map]
    exact not_lt.mpr hmc

theorem create_clusters_instincts_eq {instincts : List Instinct} {ms : ℤ}
    {mc : ℚ} {c : Cluster} (hc : c ∈ create_clusters instincts ms mc) :
    (c.domain, c.instincts) ∈ group_by_domain instincts ∧
      ¬((c.instincts.length : ℤ) < ms) := by
  obtain ⟨d, g, hg, h1, h2, rfl⟩ := mem_create_clusters.mp hc
  exact ⟨hg, h1⟩

/-- C5: under `create_clusters` a domain group is admitted as a cluster
iff its member count is at least `min_size` and its mean member
confidence is at least `min_confidence`; a group with exactly
`min_size − 1` members is never admitted; a group with exactly
`min_size` members at mean exactly `min_confidence` is admitted; and
every produced cluster's `avg_confidence` is the unboosted mean of its
members' confidences rounded to two decimals. -/
theorem C5_cluster_admission :
    (∀ (instincts : List Instinct) (ms : ℤ) (mc : ℚ) (d : String)
        (g : List Instinct), (d, g) ∈ group_by_domain instincts →
      ((∃ c ∈ create_clusters instincts ms mc, c.domain = d ∧ c.instincts = g) ↔
        (ms ≤ (g.length : ℤ) ∧
          mc ≤ (g.map (fun i => i.confidence)).sum / (g.length : ℚ)))) ∧
    (∀ (instincts : List Instinct) (ms : ℤ) (mc : ℚ) (d : String)
        (g : List Instinct), (d, g) ∈ group_by_domain instincts →
      (g.length : ℤ) = ms - 1 →
      ¬∃ c ∈ create_clusters instincts ms mc, c.domain = d) ∧
    (∀ (instincts : List Instinct) (ms : ℤ) (mc : ℚ) (d : String)
        (g : List Instinct), (d, g) ∈ group_by_domain instincts →
      (g.length : ℤ) = ms →
      (g.map (fun i => i.confidence)).sum / (g.length : ℚ) = mc →
      ∃ c ∈ create_clusters instincts ms mc, c.domain = d) ∧
    (∀ (instincts : List Instinct) (ms : ℤ) (mc : ℚ) (c : Cluster),
      c ∈ create_clusters instincts ms mc →
      c.avg_confidence = round2
        ((c.instincts.map (fun i => i.confidence)).sum /
          (c.instincts.length : ℚ))) := by
  refine ⟨create_clusters_admission_iff, ?_, ?_, ?_⟩
  · rintro instincts ms mc d g hg hlen ⟨c, hc, hcd⟩
    obtain ⟨hg', h1⟩ := create_clusters_instincts_eq hc
    rw [hcd] at hg'
    obtain ⟨_, hgf⟩ := mem_group_by_domain.mp hg
    obtain ⟨_, hgf'⟩ := mem_group_by_domain.mp hg'
    rw [hgf'.trans hgf.symm] at h1
    omega
  · intro instincts ms mc d g hg hlen hmean
    obtain ⟨c, hc, hcd, _⟩ := (create_clusters_admission_iff instincts ms mc d g hg).mpr
      ⟨le_of_eq hlen.symm, le_of_eq hmean.symm⟩
    exact ⟨c, hc, hcd⟩
  · intro instincts ms mc c hc
    obtain ⟨d, g, hg, h1, h2, rfl⟩ := mem_create_clusters.mp hc
    dsimp only
    rw [List.length_map]

/-- C5 (witness): the admission criterion applied to one concrete
3-instinct group in domain `"testing"` with confidences `0.7` each:
with `min_size = 3` and `min_confidence = 0.7` the group is admitted. -/
theorem C5_cluster_admission_witness :
    ∃ c ∈ create_clusters
      [⟨"a", "t", 7/10, "testing", "", "observation", 1, "", []⟩,
       ⟨"b", "t", 7/10, "testing", "", "observation", 1, "", []⟩,
       ⟨"c", "t", 7/10, "testing", "", "observation", 1, "", []⟩] 3 (7/10),
      c.domain = "testing" := by
  apply C5_cluster_admission.2.2.1 _ 3 (7/10) "testing"
    [⟨"a", "t", 7/10, "testing", "", "observation", 1, "", []⟩,
     ⟨"b", "t", 7/10, "testing", "", "observation", 1, "", []⟩,
     ⟨"c", "t", 7/10, "testing", "", "observation", 1, "", []⟩]
  · apply mem_group_by_domain.mpr
    constructor
    · simp
    · simp [List.filter]
  · simp
  · simp only [List.map_cons, List.map_nil, List.sum_cons, List.sum_nil,
      List.length_cons, List.length_nil]
    norm_num

/-! ## Claim C10 -/

theorem create_clusters_default_ready (instincts : List Instinct)
    (c : Cluster)
    (hc : c ∈ create_clusters instincts MIN_INSTINCTS_FOR_CLUSTER MIN_AVG_CONFIDENCE) :
    MIN_INSTINCTS_FOR_CLUSTER ≤ (c.count : ℤ) ∧
      AUTO_APPROVE_THRESHOLD ≤ c.avg_confidence := by
  obtain ⟨d, g, hg, h1, h2, rfl⟩ := mem_create_clusters.mp hc
  constructor
  · simp only [Cluster.count]
    exact not_lt.mp h1
  · show AUTO_APPROVE_THRESHOLD ≤ round2 _
    have hmean : MIN_AVG_CONFIDENCE ≤
        (g.map (fun i => i.confidence)).sum /
          (((g.map (fun i => i.confidence)).length : ℕ) : ℚ) := not_lt.mp h2
    calc AUTO_APPROVE_THRESHOLD = round2 (7/10) := by
          rw [round2_seven_tenths]
          rfl
    _ ≤ round2 _ := round2_mono hmean

/-- C10: under the default configuration (`min_size = 3`,
`min_confidence = MIN_AVG_CONFIDENCE = 0.7`, readiness threshold
`AUTO_APPROVE_THRESHOLD = 0.7`), every cluster produced by
`create_clusters` already passes the readiness filter, so after
`EvolutionEngine.analyze` the ready clusters are exactly the cached
clusters and the pending list is empty. -/
theorem C10_default_all_ready :
    ∀ instincts : List Instinct,
      filter_ready_for_evolution
        (create_clusters instincts MIN_INSTINCTS_FOR_CLUSTER MIN_AVG_CONFIDENCE) =
        create_clusters instincts MIN_INSTINCTS_FOR_CLUSTER MIN_AVG_CONFIDENCE ∧
      (EvolutionEngine.analyze ⟨MIN_INSTINCTS_FOR_CLUSTER, []⟩ instincts).get_ready_clusters =
        (EvolutionEngine.analyze ⟨MIN_INSTINCTS_FOR_CLUSTER, []⟩ instincts).clusters ∧
      (EvolutionEngine.analyze ⟨MIN_INSTINCTS_FOR_CLUSTER, []⟩ instincts).get_pending_clusters = [] := by
  intro instincts
  have hready : filter_ready_for_evolution
      (create_clusters instincts MIN_INSTINCTS_FOR_CLUSTER MIN_AVG_CONFIDENCE) =
      create_clusters instincts MIN_INSTINCTS_FOR_CLUSTER MIN_AVG_CONFIDENCE := by
    apply List.filter_eq_self.mpr
    intro c hc
    obtain ⟨hcount, havg⟩ := create_clusters_default_ready instincts c hc
    simp only [Bool.and_eq_true, decide_eq_true_eq]
    exact ⟨hcount, havg⟩
  refine ⟨hready, hready, ?_⟩
  unfold EvolutionEngine.get_pending_clusters
  apply List.filter_eq_nil_iff.mpr
  intro c hc
  have hmem : c ∈ (EvolutionEngine.analyze ⟨MIN_INSTINCTS_FOR_CLUSTER, []⟩
      instincts).get_ready_clusters := by
    show c ∈ filter_ready_for_evolution _
    rw [show (EvolutionEngine.analyze ⟨MIN_INSTINCTS_FOR_CLUSTER, []⟩ instincts).clusters =
      create_clusters instincts MIN_INSTINCTS_FOR_CLUSTER MIN_AVG_CONFIDENCE from rfl,
      hready]
    exact hc
  have : (EvolutionEngine.analyze ⟨MIN_INSTINCTS_FOR_CLUSTER, []⟩
      instincts).get_ready_clusters.contains c = true := List.elem_iff.mpr hmem
  simp only [Bool.not_eq_true', this]
  simp

/-! ## Pattern detector: `lib/pattern_detection.py` -/

/-- One observation record (a parsed JSONL line); a `none` field models a
missing key. -/
structure Obs where
  session : Option String := none
  timestamp : Option String := none
  tool : Option String := none
  exit_code : Option String := none
  type : Option String := none
  deriving DecidableEq

/-- `obs.get('session', 'default')`. -/
def sessionKey (o : Obs) : String := o.session.getD "default"

/-- `obs.get('timestamp', '')`, the sort key. -/
def obsTimestamp (o : Obs) : String := o.timestamp.getD ""

/-- Grouping by session (`defaultdict` insertion order): session keys in
first-occurrence order, each bucket the subsequence of observations in
that session. -/
def groupBySession (l : List Obs) : List (String × List Obs) :=
  (firstDedup (l.map sessionKey)).map
    (fun s => (s, l.filter (fun o => sessionKey o == s)))

/-- `sorted(session_obs, key=lambda x: x.get('timestamp', ''))`. -/
def sortByTimestamp (l : List Obs) : List Obs :=
  stableSortBy (fun a b => strLeB (obsTimestamp a) (obsTimestamp b)) l

/-- The failure test `obs.get('exit_code') and obs.get('exit_code') != '0'`:
the exit code is present, non-empty (truthiness!) and not `"0"`. -/
def exitCodeTruthyNonzero (o : Obs) : Bool :=
  match o.exit_code with
  | none => false
  | some s => !(s == "") && !(s == "0")

/-- The recovery test `next_obs.get('exit_code') == '0' or
next_obs.get('type') == 'post_tool'`. -/
def isRecoveryEvent (o : Obs) : Bool :=
  o.exit_code == some "0" || o.type == some "post_tool"

/-- The inner scan of `detect_error_fix_patterns`: among the at most 4
observations following a failure, the first recovery event that names a
tool yields the (failed tool, recovery tool) pair; recovery events with
an empty tool do not stop the scan (`if success_tool:` guard). -/
def scanRecovery (failed_tool : String) (rest : List Obs) :
    Option (String × String) :=
  (((rest.take 4).filter
      (fun o => isRecoveryEvent o && !(o.tool.getD "" == ""))).head?).map
    (fun o => (failed_tool, o.tool.getD ""))

/-- All (failed, recovery) pairs contributed by one time-sorted session,
in scan order. -/
def sessionErrorFixPairs : List Obs → List (String × String)
  | [] => []
  | o :: rest =>
    (if exitCodeTruthyNonzero o then (scanRecovery (o.tool.getD "") rest).toList
     else []) ++ sessionErrorFixPairs rest

/-- The corpus-wide (failed, recovery) pair stream of
`detect_error_fix_patterns`, session by session. -/
def errorFixPairs (observations : List Obs) : List (String × String) :=
  ((groupBySession observations).map
    (fun sg => sessionErrorFixPairs (sortByTimestamp sg.2))).flatten

/-- The `Pattern` record built for an error→fix pair. -/
def mkErrorFixPattern (pair : String × String) (count : ℕ) : Pattern :=
  ⟨"error_fix", PatternBody.ofString (pair.1 ++ " → " ++ pair.2), 7/10, count,
    "debugging", [EvidenceItem.errorFixEvidence pair.1 pair.2 count]⟩

/-- `detect_error_fix_patterns(observations)`. -/
def detect_error_fix_patterns (observations : List Obs) : List Pattern :=
  (countOcc (errorFixPairs observations)).filterMap (fun pc =>
    if 2 ≤ pc.2 then some (mkErrorFixPattern pc.1 pc.2) else none)

/-- `mostCommon n`: the `n` entries with the largest counts, ties kept in
insertion order (`Counter.most_common(n)`). -/
def mostCommon (n : ℕ) (counts : List (α × ℕ)) : List (α × ℕ) :=
  (stableSortBy (fun a b => decide (b.2 ≤ a.2)) counts).take n

/-- The `Pattern` record built for a dominant tool. -/
def mkToolPrefPattern (tool : String) (usage_share : ℚ) (count : ℕ) : Pattern :=
  ⟨"tool_preference", PatternBody.ofString ("Prefer " ++ tool),
    min (9/10) (1/2 + usage_share), count, "workflow",
    [EvidenceItem.toolPrefEvidence tool usage_share count]⟩

/-- The emission loop of `detect_tool_preferences`: for each of the
most-used tools, emit a pattern if its usage share exceeds 20% and its
count is at least 5. -/
def toolPrefLoop (total_tools : ℕ) (top : List (String × ℕ)) : List Pattern :=
  top.filterMap (fun tc =>
    if ((tc.2 : ℚ) / (total_tools : ℚ) > 1/5 ∧ 5 ≤ tc.2) then
      some (mkToolPrefPattern tc.1 ((tc.2 : ℚ) / (total_tools : ℚ)) tc.2)
    else none)

/-- `detect_tool_preferences(observations)`: count non-empty tools over
all observations; among the 10 most-used tools emit a pattern for each
with usage share above 20% and count at least 5. -/
def detect_tool_preferences (observations : List Obs) : List Pattern :=
  let tool_counts : List (String × ℕ) :=
    countOcc ((observations.map (fun o => o.tool.getD "")).filter
      (fun t => !(t == "")))
  let total_tools : ℕ := (tool_counts.map (fun tc => tc.2)).sum
  if total_tools = 0 then []
  else toolPrefLoop total_tools (mostCommon 10 tool_counts)

/-- `group_patterns_by_domain(patterns)`: insertion-ordered grouping of
patterns by their `domain` field. -/
def group_patterns_by_domain (patterns : List Pattern) :
    List (String × List Pattern) :=
  (firstDedup (patterns.map (fun p => p.domain))).map
    (fun d => (d, patterns.filter (fun p => p.domain == d)))

/-! ## Claim C2 -/

/-- Failure test exactly as claim C2 words it: `exit_code` is present and
not `"0"` (no non-emptiness requirement). -/
def claimedFailure (o : Obs) : Bool :=
  o.exit_code.isSome && !(o.exit_code == some "0")

/-- Recovery scan exactly as claim C2 words it: the first of the up to 4
subsequent observations that is explicitly successful or completion-type
is recorded and stops the scan (no tool-present requirement). -/
def claimedScan (failed : String) (rest : List Obs) : Option (String × String) :=
  ((rest.take 4).find? isRecoveryEvent).map (fun o => (failed, o.tool.getD ""))

/-- Per-session pair extraction under claim C2's literal reading. -/
def claimedSessionPairs : List Obs → List (String × String)
  | [] => []
  | o :: rest =>
    (if claimedFailure o then (claimedScan (o.tool.getD "") rest).toList else [])
      ++ claimedSessionPairs rest

/-- Error→fix detection under claim C2's literal reading: corpus-wide
pair counts; every pair with count at least 2 yields one pattern. -/
def claimed_error_fix_patterns (observations : List Obs) : List Pattern :=
  let pairs := ((groupBySession observations).map
    (fun sg => claimedSessionPairs (sortByTimestamp sg.2))).flatten
  (firstDedup pairs).filterMap (fun p =>
    if 2 ≤ pairs.count p then some (mkErrorFixPattern p (pairs.count p)) else none)

/-- Session of 4 observations in which failures carry an empty (but
present) `exit_code`. -/
def exObsEmptyExit : List Obs :=
  [⟨some "s", some "1", some "A", some "", none⟩,
   ⟨some "s", some "2", some "B", some "0", none⟩,
   ⟨some "s", some "3", some "A", some "", none⟩,
   ⟨some "s", some "4", some "B", some "0", none⟩]

/-- C2 (counterexample): on observations whose `exit_code` is present but
empty, the claimed procedure sees two failures recovered by tool `B` and
emits an `error_fix` pattern, while the code's truthiness test
(`obs.get('exit_code')`) skips empty exit codes and emits nothing. -/
theorem C2_error_fix_counterexample :
    detect_error_fix_patterns exObsEmptyExit = [] ∧
    (claimed_error_fix_patterns exObsEmptyExit).map (fun p => p.pattern_type) =
      ["error_fix"] := by
  constructor
  · decide
  · decide

/-- Failure test modelled from the amended claim: `exit_code` present,
non-empty and not `"0"`. -/
def specFailure (o : Obs) : Bool :=
  o.exit_code.isSome && !(o.exit_code == some "") && !(o.exit_code == some "0")

/-- Recovery scan modelled from the amended claim: the first of the up to
4 subsequent observations that is explicitly successful or
completion-type and names a tool is recorded and stops the scan. -/
def specScan (failed : String) (rest : List Obs) : Option (String × String) :=
  ((rest.take 4).find? (fun o => isRecoveryEvent o && !(o.tool.getD "" == ""))).map
    (fun o => (failed, o.tool.getD ""))

/-- Per-session pair extraction under the amended claim. -/
def specSessionPairs : List Obs → List (String × String)
  | [] => []
  | o :: rest =>
    (if specFailure o then (specScan (o.tool.getD "") rest).toList else [])
      ++ specSessionPairs rest

/-- Error→fix detection under the amended claim: partition by session,
sort each session by timestamp, extract pairs, count corpus-wide, keep
pairs with count at least 2 as `error_fix` patterns with confidence 0.7
and domain `debugging`. -/
def spec_error_fix_patterns (observations : List Obs) : List Pattern :=
  let pairs := ((groupBySession observations).map
    (fun sg => specSessionPairs (sortByTimestamp sg.2))).flatten
  (firstDedup pairs).filterMap (fun p =>
    if 2 ≤ pairs.count p then some (mkErrorFixPattern p (pairs.count p)) else none)

theorem head?_filter_eq_find? (p : α → Bool) (l : List α) :
    (l.filter p).head? = l.find? p := by
  induction l with
  | nil => rfl
  | cons x xs ih =>
    cases h : p x <;> simp [List.filter_cons, List.find?_cons, h, ih]

theorem specFailure_eq (o : Obs) : exitCodeTruthyNonzero o = specFailure o := by
  unfold specFailure exitCodeTruthyNonzero
  cases o.exit_code with
  | none => rfl
  | some s => simp [Option.isSome]

theorem specScan_eq (failed : String) (rest : List Obs) :
    scanRecovery failed rest = specScan failed rest := by
  unfold scanRecovery specScan
  rw [head?_filter_eq_find?]

theorem specSessionPairs_eq (l : List Obs) :
    sessionErrorFixPairs l = specSessionPairs l := by
  induction l with
  | nil => rfl
  | cons o rest ih =>
    unfold sessionErrorFixPairs specSessionPairs
    rw [ih, specFailure_eq, specScan_eq]

/-- C2 (amended): error→fix detection partitions observations by session,
sorts each session ascending by timestamp, and for every observation
whose `exit_code` is present, non-empty and not `"0"` scans forward up to
4 subsequent observations for the first one that is explicitly successful
or completion-type **and names a tool**, records the pair and stops
scanning for that failure; pair counts accumulate across the corpus and
every pair with count at least 2 yields exactly one `error_fix` pattern
with confidence 0.7 and domain `debugging`. -/
theorem C2_error_fix_amended :
    ∀ observations : List Obs,
      detect_error_fix_patterns observations =
        spec_error_fix_patterns observations := by
  intro observations
  unfold detect_error_fix_patterns spec_error_fix_patterns errorFixPairs countOcc
  simp only [specSessionPairs_eq]
  rw [List.filterMap_map]
  rfl

/-! ## Claim C8 -/

/-- Tool-preference detection modelled from the claim's words: count tool
usage across all observations regardless of session; among the 10
most-used tools exactly those with usage share above 20% and count at
least 5 yield a `tool_preference` pattern with confidence
`min(0.9, 0.5 + usage_ratio)` and domain `workflow`. -/
def spec_tool_preference_patterns (observations : List Obs) : List Pattern :=
  let tool_counts : List (String × ℕ) :=
    countOcc ((observations.map (fun o => o.tool.getD "")).filter
      (fun t => !(t == "")))
  let total_tools : ℕ := (tool_counts.map (fun tc => tc.2)).sum
  ((mostCommon 10 tool_counts).filter
    (fun tc => decide ((tc.2 : ℚ) / (total_tools : ℚ) > 1/5) && decide (5 ≤ tc.2))).map
    (fun tc => mkToolPrefPattern tc.1 ((tc.2 : ℚ) / (total_tools : ℚ)) tc.2)

theorem countOcc_total_pos [DecidableEq α] (l : List α) (h : l ≠ []) :
    0 < ((countOcc l).map (fun tc => tc.2)).sum := by
  obtain ⟨x, xs, rfl⟩ := List.exists_cons_of_ne_nil h
  have hrec : countOcc (x :: xs) =
      (x, (x :: xs).count x) ::
        (firstDedupAux [x] xs).map (fun a => (a, (x :: xs).count a)) := rfl
  rw [hrec]
  simp only [List.map_cons, List.sum_cons]
  have : 0 < (x :: xs).count x := by
    rw [List.count_cons_self]
    omega
  omega

theorem filterMap_if_filter (p : α → Prop) [DecidablePred p] (f : α → β)
    (l : List α) :
    l.filterMap (fun x => if p x then some (f x) else none) =
      (l.filter (fun x => decide (p x))).map f := by
  induction l with
  | nil => rfl
  | cons x xs ih => by_cases h : p x <;> simp [List.filter_cons, h, ih]

/-- Concrete corpus of 10 observations: 5 using tool `Edit`, then 5 using
tool `Read`. -/
def scenario10Obs : List Obs :=
  (List.replicate 5 ⟨none, none, some "Edit", none, none⟩) ++
    (List.replicate 5 ⟨none, none, some "Read", none, none⟩)

/-- C8: `detect_tool_preferences` computes exactly the claimed pipeline
(session-blind counting; among the 10 most-used tools exactly those with
share above 20% and count at least 5 become patterns with confidence
`min(0.9, 0.5 + share)` and domain `workflow`), and on the concrete
5×`Edit` + 5×`Read` corpus it emits a preference pattern for both tools
(each share 1/2, confidence capped at 0.9). -/
theorem C8_tool_preferences :
    (∀ observations : List Obs,
      detect_tool_preferences observations =
        spec_tool_preference_patterns observations) ∧
    detect_tool_preferences scenario10Obs =
      [mkToolPrefPattern "Edit" (1/2) 5, mkToolPrefPattern "Read" (1/2) 5] := by
  constructor
  · intro observations
    unfold detect_tool_preferences spec_tool_preference_patterns toolPrefLoop
    dsimp only
    by_cases h : ((countOcc ((observations.map (fun o => o.tool.getD "")).filter
        (fun t => !(t == "")))).map (fun tc => tc.2)).sum = 0
    · rw [if_pos h]
      have hsrc : ((observations.map (fun o => o.tool.getD "")).filter
          (fun t => !(t == ""))) = [] := by
        by_contra hne
        exact absurd h (countOcc_total_pos _ hne).ne'
      rw [hsrc]
      rfl
    · rw [if_neg h, filterMap_if_filter]
      simp only [Bool.decide_and]
  · have hcounts : countOcc ((scenario10Obs.map (fun o => o.tool.getD "")).filter
        (fun t => !(t == ""))) = [("Edit", 5), ("Read", 5)] := by decide
    have hmost : mostCommon 10 [("Edit", (5:ℕ)), ("Read", 5)] =
        [("Edit", 5), ("Read", 5)] := by decide
    unfold detect_tool_preferences
    dsimp only
    rw [hcounts]
    have htotal : (([("Edit", (5:ℕ)), ("Read", 5)]).map (fun tc => tc.2)).sum = 10 := by
      decide
    rw [htotal, if_neg (by norm_num), hmost]
    unfold toolPrefLoop
    rw [List.filterMap_cons, List.filterMap_cons, List.filterMap_nil]
    rw [if_pos (by constructor <;> norm_num), if_pos (by constructor <;> norm_num)]
    norm_num [mkToolPrefPattern]

/-! ## Pattern → instinct conversion: `scripts/run-observer.py` and
`lib/instinct_parser.py` -/

/-- A word character of Python's regex `\w` (the triggers in play are
ASCII). -/
def isWordChar (c : Char) : Bool := c.isAlphanum || c == '_'

/-- Splits a character list into its maximal word-character runs
(`cur` holds the current run reversed). -/
def wordRunsAux (cur : List Char) : List Char → List (List Char)
  | [] => if cur.isEmpty then [] else [cur.reverse]
  | c :: cs =>
    if isWordChar c then wordRunsAux (c :: cur) cs
    else if cur.isEmpty then wordRunsAux [] cs
    else cur.reverse :: wordRunsAux [] cs

/-- The matches of `re.findall(r'\b[a-zA-Z]{3,}\b', s)`: exactly the
maximal word-character runs that are entirely alphabetic and at least 3
characters long. -/
def findWords (s : String) : List String :=
  ((wordRunsAux [] s.data).filter
    (fun r => r.all (fun c => c.isAlpha) && decide (3 ≤ r.length))).map
    (fun r => String.mk r)

/-- The stop words excluded from key words in `generate_instinct_id`. -/
def stop_words : List String := ["when", "the", "for", "and", "with"]

/-- `generate_instinct_id(trigger, domain)`; the wall-clock `%Y%m%d%H%M`
suffix is passed in as `timestamp`. -/
def generate_instinct_id (trigger domain timestamp : String) : String :=
  let words := findWords (strLower trigger)
  let key_words := words.filter (fun w => !(stop_words.contains w))
  let base_id := if key_words.isEmpty then domain
    else String.intercalate "-" (key_words.take 3)
  (base_id ++ "-" ++ timestamp).take 50

/-- Python string interpolation `f"...{pattern.pattern}..."` of a pattern
body: strings verbatim, lists in list-repr form. -/
def pyStr (b : PatternBody) : String :=
  match b with
  | PatternBody.ofString s => s
  | PatternBody.ofList l =>
    let q := String.singleton (Char.ofNat 39)
    "[" ++ String.intercalate ", " (l.map (fun s => q ++ s ++ q)) ++ "]"

/-- `' → '.join(pattern.pattern)`: joins a list of tool names; applied to
a plain string Python joins its characters. -/
def joinArrow (b : PatternBody) : String :=
  match b with
  | PatternBody.ofList l => String.intercalate " → " l
  | PatternBody.ofString s =>
    String.intercalate " → " (s.data.map (fun c => String.singleton c))

/-- `pattern_to_instinct(pattern)`; the two wall-clock reads (the
`%Y%m%d%H%M` id suffix and the ISO `created` stamp) are passed in as
parameters. -/
def pattern_to_instinct (id_timestamp created : String)
    (pattern : Pattern) : Instinct :=
  let pattern_str := match pattern.pattern with
    | PatternBody.ofList l => String.intercalate "-" (l.take 3)
    | PatternBody.ofString s => s
  let instinct_id := generate_instinct_id pattern_str pattern.domain id_timestamp
  let trigger :=
    if pattern.pattern_type == "repeated_sequence" then
      "when using " ++ joinArrow pattern.pattern ++ " sequence"
    else if pattern.pattern_type == "error_fix" then
      "when " ++ pyStr pattern.pattern ++ " error occurs"
    else if pattern.pattern_type == "tool_preference" then
      "when choosing tools"
    else "when " ++ pyStr pattern.pattern
  let action := "Apply learned " ++
    (String.map (fun c => if c == '_' then ' ' else c) pattern.pattern_type) ++
    " pattern"
  let evidence :=
    ["Detected in " ++ toString pattern.evidence_count ++ " observations"]
  ⟨instinct_id, trigger, pattern.confidence, pattern.domain, created,
    "observation", pattern.evidence_count, action, evidence⟩

/-! ## Claim C9 -/

/-- C9: `pattern_to_instinct` preserves the `domain` field, so grouping
the converted instincts by domain yields exactly the domain partition of
the original patterns: the same keys in the same order, each bucket the
image of the corresponding pattern bucket. -/
theorem C9_domain_roundtrip :
    ∀ (id_timestamp created : String) (patterns : List Pattern),
      (∀ p : Pattern,
        (pattern_to_instinct id_timestamp created p).domain = p.domain) ∧
      group_by_domain (patterns.map (pattern_to_instinct id_timestamp created)) =
        (group_patterns_by_domain patterns).map
          (fun g => (g.1, g.2.map (pattern_to_instinct id_timestamp created))) := by
  intro id_timestamp created patterns
  refine ⟨fun p => rfl, ?_⟩
  unfold group_by_domain group_patterns_by_domain
  rw [List.map_map]
  rw [show ((fun x : Instinct => x.domain) ∘ pattern_to_instinct id_timestamp created)
      = (fun p : Pattern => p.domain) from rfl]
  rw [List.map_map]
  apply List.map_congr_left
  intro d _
  simp only [Function.comp_apply]
  rw [List.filter_map]
  rfl

/-! ## Read-time decay: `scripts/utils/confidence.py`

`datetime.fromisoformat` is modelled by an explicit parser for the
offset-carrying `YYYY-MM-DDTHH:MM:SS±HH:MM` form that the function's
preprocessing produces (a trailing `Z` is first rewritten to `+00:00`,
and `+00:00` is appended when no offset is present); strings outside
this form are treated as unparsable.  Instants are epoch seconds (`ℤ`),
`datetime.now` is a parameter, and `timedelta.days` is flooring division
of the second difference by 86400. -/

/-- `DEFAULT_DECAY_RATE = 0.02` (per week). -/
def DEFAULT_DECAY_RATE : ℚ := 2/100

/-- The fields of an instinct record read by
`calculate_effective_confidence`; `none` models a missing key. -/
structure InstinctRecord where
  confidence : Option ℚ := none
  last_observed : Option String := none
  created : Option String := none
  deriving DecidableEq

/-- `last_observed.replace('Z', '+00:00')`. -/
def replaceZ (s : String) : String :=
  String.mk (s.data.flatMap (fun c => if c == 'Z' then "+00:00".data else [c]))

/-- The preprocessing of the timestamp string: rewrite `Z`, then append
`+00:00` when the string contains no `+` and no `-` among its last six
characters. -/
def pyPrepare (s : String) : String :=
  let t := replaceZ s
  if !(t.data.contains '+') &&
      !((t.data.drop (t.data.length - 6)).contains '-') then t ++ "+00:00"
  else t

/-- Parses exactly `n` decimal digits, accumulating into `acc`. -/
def parseDigits : ℕ → ℕ → List Char → Option (ℕ × List Char)
  | 0, acc, cs => some (acc, cs)
  | _ + 1, _, [] => none
  | n + 1, acc, c :: cs =>
    if c.isDigit then parseDigits n (acc * 10 + (c.toNat - 48)) cs else none

/-- Consumes one expected character. -/
def expectChar (c : Char) : List Char → Option (List Char)
  | [] => none
  | x :: xs => if x == c then some xs else none

/-- Consumes a `+`/`-` offset sign. -/
def parseSign : List Char → Option (ℤ × List Char)
  | [] => none
  | c :: cs =>
    if c == '+' then some (1, cs)
    else if c == '-' then some (-1, cs)
    else none

/-- Gregorian leap-year test. -/
def isLeapYear (y : ℕ) : Bool := (y % 4 == 0 && y % 100 != 0) || y % 400 == 0

/-- Number of days in a month. -/
def daysInMonth (y m : ℕ) : ℕ :=
  if m == 2 then (if isLeapYear y then 29 else 28)
  else if m == 4 || m == 6 || m == 9 || m == 11 then 30
  else 31

/-- Days from the epoch 1970-01-01 to the civil date `y-m-d`
(proleptic Gregorian calendar). -/
def daysFromCivil (y m d : ℤ) : ℤ :=
  let y2 := if m ≤ 2 then y - 1 else y
  let era := Int.fdiv y2 400
  let yoe := y2 - era * 400
  let mp := Int.emod (m + 9) 12
  let doy := Int.fdiv (153 * mp + 2) 5 + d - 1
  let doe := yoe * 365 + Int.fdiv yoe 4 - Int.fdiv yoe 100 + doy
  era * 146097 + doe - 719468

/-- Parses `YYYY-MM-DD`. -/
def parseDate (cs : List Char) : Option (ℕ × ℕ × ℕ × List Char) := do
  let (y, r1) ← parseDigits 4 0 cs
  let r2 ← expectChar '-' r1
  let (mo, r3) ← parseDigits 2 0 r2
  let r4 ← expectChar '-' r3
  let (d, r5) ← parseDigits 2 0 r4
  some (y, mo, d, r5)

/-- Parses `HH:MM:SS`. -/
def parseClock (cs : List Char) : Option (ℕ × ℕ × ℕ × List Char) := do
  let (h, r1) ← parseDigits 2 0 cs
  let r2 ← expectChar ':' r1
  let (mi, r3) ← parseDigits 2 0 r2
  let r4 ← expectChar ':' r3
  let (se, r5) ← parseDigits 2 0 r4
  some (h, mi, se, r5)

/-- Parses `±HH:MM`. -/
def parseOffset (cs : List Char) : Option (ℤ × ℕ × ℕ × List Char) := do
  let (sign, r1) ← parseSign cs
  let (oh, r2) ← parseDigits 2 0 r1
  let r3 ← expectChar ':' r2
  let (om, r4) ← parseDigits 2 0 r3
  some (sign, oh, om, r4)

/-- Range validation of the parsed fields, as `fromisoformat` performs. -/
def isValidParts (y mo d h mi se oh om : ℕ) : Bool :=
  decide (1 ≤ mo) && decide (mo ≤ 12) && decide (1 ≤ d) &&
    decide (d ≤ daysInMonth y mo) && decide (h ≤ 23) && decide (mi ≤ 59) &&
    decide (se ≤ 59) && decide (oh ≤ 23) && decide (om ≤ 59)

/-- Parser for the aware ISO form `YYYY-MM-DDTHH:MM:SS±HH:MM`, yielding
UTC epoch seconds; anything else is unparsable (`none`). -/
def isoParseAware (s : String) : Option ℤ := do
  let (y, mo, d, r1) ← parseDate s.data
  let r2 ← expectChar 'T' r1
  let (h, mi, se, r3) ← parseClock r2
  let (sign, oh, om, r4) ← parseOffset r3
  if r4.isEmpty && isValidParts y mo d h mi se oh om then
    some (daysFromCivil y mo d * 86400 + h * 3600 + mi * 60 + se -
      sign * (oh * 3600 + om * 60))
  else none

/-- `calculate_effective_confidence(instinct, decay_rate)`; `nowSec` is
the wall-clock instant in epoch seconds. -/
def calculate_effective_confidence (nowSec : ℤ) (instinct : InstinctRecord)
    (decay_rate : ℚ) : ℚ :=
  let base_confidence := instinct.confidence.getD (1/2)
  let last_observed := instinct.last_observed.getD (instinct.created.getD "")
  if last_observed == "" then base_confidence
  else
    match isoParseAware (pyPrepare last_observed) with
    | none => base_confidence
    | some lastSec =>
      let days := Int.fdiv (nowSec - lastSec) 86400
      let weeks_since : ℚ := max 0 ((days : ℚ) / 7)
      max MIN_CONFIDENCE (base_confidence - decay_rate * weeks_since)

/-! ## Claim C7 -/

theorem fdiv_nonpos_of_nonpos {a b : ℤ} (hb : 0 < b) (ha : a ≤ 0) :
    a.fdiv b ≤ 0 := by
  rw [Int.fdiv_eq_ediv _ hb.le]
  calc a / b ≤ 0 / b := Int.ediv_le_ediv hb ha
  _ = 0 := Int.zero_ediv b

/-- C7 (counterexample): the record with base confidence `0.1` and the
parsable future timestamp `2030-01-01T00:00:00Z` (relative to
`now = 0`, the 1970 epoch) yields `0.3` — the decayed value is floored
at `MIN_CONFIDENCE` — not the base confidence `0.1` the claim promises. -/
theorem C7_effective_confidence_counterexample :
    calculate_effective_confidence 0
      ⟨some (1/10), some "2030-01-01T00:00:00Z", none⟩ (2/100) = 3/10 ∧
    (3/10 : ℚ) ≠ 1/10 ∧
    isoParseAware (pyPrepare "2030-01-01T00:00:00Z") = some 1893456000 ∧
    (0 : ℤ) < 1893456000 := by
  have hparse : isoParseAware (pyPrepare "2030-01-01T00:00:00Z") =
      some 1893456000 := by decide
  refine ⟨?_, by norm_num, hparse, by decide⟩
  unfold calculate_effective_confidence
  dsimp only
  rw [if_neg (by decide)]
  rw [show (InstinctRecord.mk (some (1/10)) (some "2030-01-01T00:00:00Z")
      none).last_observed.getD ((InstinctRecord.mk (some (1/10))
      (some "2030-01-01T00:00:00Z") none).created.getD "") =
      "2030-01-01T00:00:00Z" from rfl, hparse]
  dsimp only
  have hdays : Int.fdiv ((0 : ℤ) - 1893456000) 86400 = -21915 := by decide
  rw [hdays]
  norm_num [MIN_CONFIDENCE, max_def]

/-- C7 (amended): a missing or empty timestamp returns the base
confidence unchanged; an unparsable timestamp returns the base
confidence unchanged; a parsable future timestamp is clamped to zero
elapsed time, so the result is `max(MIN_CONFIDENCE, base)` — the base
confidence unchanged whenever the base is at least `0.3`; and with a
nonnegative decay rate the elapsed weeks are never negative, so the
result never exceeds `max(MIN_CONFIDENCE, base)`. -/
theorem C7_effective_confidence_amended :
    (∀ (nowSec : ℤ) (rec : InstinctRecord) (rate : ℚ),
      rec.last_observed.getD (rec.created.getD "") = "" →
      calculate_effective_confidence nowSec rec rate =
        rec.confidence.getD (1/2)) ∧
    (∀ (nowSec : ℤ) (rec : InstinctRecord) (rate : ℚ),
      isoParseAware (pyPrepare (rec.last_observed.getD (rec.created.getD ""))) =
        none →
      calculate_effective_confidence nowSec rec rate =
        rec.confidence.getD (1/2)) ∧
    (∀ (nowSec lastSec : ℤ) (rec : InstinctRecord) (rate : ℚ),
      isoParseAware (pyPrepare (rec.last_observed.getD (rec.created.getD ""))) =
        some lastSec →
      nowSec < lastSec →
      calculate_effective_confidence nowSec rec rate =
        max MIN_CONFIDENCE (rec.confidence.getD (1/2))) ∧
    (∀ (nowSec : ℤ) (rec : InstinctRecord) (rate : ℚ), 0 ≤ rate →
      calculate_effective_confidence nowSec rec rate ≤
        max MIN_CONFIDENCE (rec.confidence.getD (1/2))) := by
  refine ⟨?_, ?_, ?_, ?_⟩
  · intro nowSec rec rate h
    unfold calculate_effective_confidence
    dsimp only
    rw [h]
    rw [if_pos (by decide)]
  · intro nowSec rec rate h
    unfold calculate_effective_confidence
    dsimp only
    by_cases hemp : (rec.last_observed.getD (rec.created.getD "") == "") = true
    · rw [if_pos hemp]
    · rw [if_neg hemp, h]
  · intro nowSec lastSec rec rate hparse hlt
    unfold calculate_effective_confidence
    dsimp only
    by_cases hemp : (rec.last_observed.getD (rec.created.getD "") == "") = true
    · exfalso
      have heq : rec.last_observed.getD (rec.created.getD "") = "" := by
        exact eq_of_beq hemp
      rw [heq] at hparse
      have : isoParseAware (pyPrepare "") = none := by decide
      rw [this] at hparse
      exact Option.noConfusion hparse
    · rw [if_neg hemp, hparse]
      dsimp only
      have hdays : Int.fdiv (nowSec - lastSec) 86400 ≤ 0 :=
        fdiv_nonpos_of_nonpos (by norm_num) (by omega)
      have hq : ((Int.fdiv (nowSec - lastSec) 86400 : ℤ) : ℚ) / 7 ≤ 0 := by
        have : ((Int.fdiv (nowSec - lastSec) 86400 : ℤ) : ℚ) ≤ 0 := by
          exact_mod_cast hdays
        linarith
      rw [max_eq_left hq]
      rw [mul_zero, sub_zero]
  · intro nowSec rec rate hrate
    unfold calculate_effective_confidence
    dsimp only
    by_cases hemp : (rec.last_observed.getD (rec.created.getD "") == "") = true
    · rw [if_pos hemp]
      exact le_max_right _ _
    · rw [if_neg hemp]
      cases hparse : isoParseAware (pyPrepare (rec.last_observed.getD
          (rec.created.getD ""))) with
      | none => exact le_max_right _ _
      | some lastSec =>
        apply max_le_max (le_refl _)
        have hw : (0 : ℚ) ≤ max 0 (((Int.fdiv (nowSec - lastSec) 86400 : ℤ) : ℚ) / 7) :=
          le_max_left _ _
        nlinarith

/-- C7 (witness): the future-timestamp clause applied to a concrete
record with base confidence `0.8`: the result is
`max(MIN_CONFIDENCE, 0.8)`. -/
theorem C7_effective_confidence_amended_witness :
    calculate_effective_confidence 0
      ⟨some (8/10), some "2030-01-01T00:00:00Z", none⟩ (2/100) =
      max MIN_CONFIDENCE
        ((InstinctRecord.mk (some (8/10)) (some "2030-01-01T00:00:00Z")
          none).confidence.getD (1/2)) :=
  C7_effective_confidence_amended.2.2.1 0 1893456000 _ (2/100) (by decide)
    (by decide)
